import Mathlib

/-!
Shallow embedding of the tulayngmamamo message-brokering bridge
(TypeScript sources under `src/`), together with theorems checking the
natural-language specification against the code.

Conventions of the embedding:
* SQLite TEXT timestamps (ISO-8601 at a fixed format, compared
  lexicographically by SQLite) are modelled as `Int` instants; `Date.now()`
  and `strftime('now')` become an explicit `now : Int` argument.
* `randomUUID()` becomes an explicit fresh-id argument.
* JavaScript `Map` objects become association lists with unique keys.
* Fallible handlers return `Except String`; `null`/`undefined` become
  `Option`.
-/

namespace Bridge

/-- `ClientId` from `src/db/clients.ts`: the closed set of assistants. -/
inductive ClientId
  | claude
  | codex
deriving DecidableEq, Repr

/-- `ClientStatus` from `src/db/clients.ts`. -/
inductive ClientStatus
  | online
  | offline
  | busy
deriving DecidableEq, Repr

/-- `MessageStatus` from `src/db/messages.ts`. -/
inductive MessageStatus
  | pending
  | delivered
  | read
  | responded
deriving DecidableEq, Repr

/-- `MessagePriority` from `src/db/messages.ts`. -/
inductive MessagePriority
  | normal
  | high
  | urgent
deriving DecidableEq, Repr

/-- `MessageType` from `src/db/messages.ts`. -/
inductive MessageType
  | message
  | research_request
  | research_response
  | review_request
  | review_response
  | context_share
  | system
deriving DecidableEq, Repr

/-- `ConversationStatus` from `src/db/conversations.ts`. -/
inductive ConversationStatus
  | active
  | pending
  | completed
  | archived
deriving DecidableEq, Repr

/-- A row of the `conversations` table (`src/db/conversations.ts`,
schema in `schema.sql`). -/
structure Conversation where
  id : String
  title : Option String
  project : Option String
  status : ConversationStatus
  created_by : ClientId
  created_at : Int
  updated_at : Int
  closed_at : Option Int
  summary : Option String
  metadata : Option String
deriving DecidableEq, Repr

/-- A row of the `messages` table (`src/db/messages.ts`). -/
structure Message where
  id : String
  conversation_id : String
  sender : ClientId
  target : ClientId
  content : String
  message_type : MessageType
  priority : MessagePriority
  status : MessageStatus
  response_to_id : Option String
  created_at : Int
  delivered_at : Option Int
  read_at : Option Int
  metadata : Option String
deriving DecidableEq, Repr

/-- A row of the `message_queue` table (`QueuedMessage` in
`src/db/message_queue.ts`). -/
structure QueueEntry where
  id : Nat
  message_id : String
  target : ClientId
  priority : Int
  attempts : Nat
  max_attempts : Nat
  next_attempt : Int
  created_at : Int
deriving DecidableEq, Repr

/-- The database state threaded through every store operation
(`better-sqlite3` handle in the source).  Lists keep insertion (rowid)
order.  `nextQueueRowId` models the `INTEGER PRIMARY KEY` rowid
allocator of `message_queue`. -/
structure Db where
  clients : ClientId → ClientStatus
  conversations : List Conversation
  messages : List Message
  queue : List QueueEntry
  nextQueueRowId : Nat

/-- `isClientOnline` from `src/db/clients.ts`: reads the persisted
`clients.status` column. -/
def isClientOnline (db : Db) (id : ClientId) : Bool :=
  db.clients id == ClientStatus.online

/-- `getConversation` from `src/db/conversations.ts`. -/
def getConversation (db : Db) (id : String) : Option Conversation :=
  db.conversations.find? (fun c => c.id == id)

/-- `CreateConversationInput` from `src/db/conversations.ts`. -/
structure CreateConversationInput where
  title : Option String := none
  project : Option String := none
  created_by : ClientId
  metadata : Option String := none

/-- `createConversation` from `src/db/conversations.ts`: inserts a row
with schema defaults `status='active'`, fresh timestamps; `uuid` is the
explicit fresh id. -/
def createConversation (db : Db) (input : CreateConversationInput)
    (uuid : String) (now : Int) : Db × Conversation :=
  let c : Conversation :=
    { id := uuid
      title := input.title
      project := input.project
      status := ConversationStatus.active
      created_by := input.created_by
      created_at := now
      updated_at := now
      closed_at := none
      summary := none
      metadata := input.metadata }
  ({ db with conversations := db.conversations ++ [c] }, c)

/-- `getMessage` from `src/db/messages.ts`. -/
def getMessage (db : Db) (id : String) : Option Message :=
  db.messages.find? (fun m => m.id == id)

/-- `CreateMessageInput` from `src/db/messages.ts`. -/
structure CreateMessageInput where
  conversation_id : String
  sender : ClientId
  target : ClientId
  content : String
  message_type : Option MessageType := none
  priority : Option MessagePriority := none
  response_to_id : Option String := none
  metadata : Option String := none

/-- `createMessage` from `src/db/messages.ts`: inserts the row with
schema defaults (`status='pending'`, `message_type='message'`,
`priority='normal'`) and bumps the conversation's `updated_at`. -/
def createMessage (db : Db) (input : CreateMessageInput)
    (uuid : String) (now : Int) : Db × Message :=
  let m : Message :=
    { id := uuid
      conversation_id := input.conversation_id
      sender := input.sender
      target := input.target
      content := input.content
      message_type := input.message_type.getD MessageType.message
      priority := input.priority.getD MessagePriority.normal
      status := MessageStatus.pending
      response_to_id := input.response_to_id
      created_at := now
      delivered_at := none
      read_at := none
      metadata := input.metadata }
  let db :=
    { db with
      messages := db.messages ++ [m]
      conversations := db.conversations.map (fun c =>
        if c.id == input.conversation_id then { c with updated_at := now } else c) }
  (db, m)

/-- The per-row effect of the `UPDATE messages SET status = ?…` in
`updateMessageStatus`: write the status unconditionally, additionally
stamping `delivered_at` or `read_at` when transitioning into those
states. -/
def applyStatus (id : String) (status : MessageStatus) (now : Int)
    (m : Message) : Message :=
  if m.id == id then
    if status == MessageStatus.delivered then
      { m with status := status, delivered_at := some now }
    else if status == MessageStatus.read then
      { m with status := status, read_at := some now }
    else
      { m with status := status }
  else m

/-- `updateMessageStatus` from `src/db/messages.ts`: unconditionally
writes the given status on the row with this id (no transition
check). -/
def updateMessageStatus (db : Db) (id : String) (status : MessageStatus)
    (now : Int) : Db :=
  { db with messages := db.messages.map (applyStatus id status now) }

/-- `CreateQueuedMessageInput` from `src/db/message_queue.ts`. -/
structure CreateQueuedMessageInput where
  message_id : String
  target : ClientId
  priority : Option Int := none
  max_attempts : Option Nat := none

/-- `enqueueMessage` from `src/db/message_queue.ts`: inserts a queue row
with `priority` defaulted to 0 (`?? 0`), `max_attempts` defaulted to 3
(`?? 3`), and schema defaults `attempts = 0`, `next_attempt = now`. -/
def enqueueMessage (db : Db) (input : CreateQueuedMessageInput)
    (now : Int) : Db × QueueEntry :=
  let entry : QueueEntry :=
    { id := db.nextQueueRowId
      message_id := input.message_id
      target := input.target
      priority := input.priority.getD 0
      attempts := 0
      max_attempts := input.max_attempts.getD 3
      next_attempt := now
      created_at := now }
  ({ db with queue := db.queue ++ [entry], nextQueueRowId := db.nextQueueRowId + 1 },
   entry)

/-- The `WHERE` clause of `dequeueMessages`
(`src/db/message_queue.ts`): ready and not exhausted rows for the
target. -/
def dequeueReady (target : ClientId) (now : Int) (q : QueueEntry) : Bool :=
  q.target == target && q.next_attempt ≤ now && q.attempts < q.max_attempts

/-- The `ORDER BY priority DESC, next_attempt ASC` ordering of
`dequeueMessages`. -/
def dequeueLE (a b : QueueEntry) : Prop :=
  b.priority < a.priority ∨ (a.priority = b.priority ∧ a.next_attempt ≤ b.next_attempt)

instance : DecidableRel dequeueLE := fun a b => by
  unfold dequeueLE; infer_instance

instance : IsTotal QueueEntry dequeueLE where
  total a b := by
    rcases lt_trichotomy a.priority b.priority with h | h | h
    · exact Or.inr (Or.inl h)
    · rcases le_total a.next_attempt b.next_attempt with h' | h'
      · exact Or.inl (Or.inr ⟨h, h'⟩)
      · exact Or.inr (Or.inr ⟨h.symm, h'⟩)
    · exact Or.inl (Or.inl h)

instance : IsTrans QueueEntry dequeueLE where
  trans a b c hab hbc := by
    rcases hab with h1 | ⟨h1, h1'⟩
    · rcases hbc with h2 | ⟨h2, h2'⟩
      · exact Or.inl (h2.trans h1)
      · exact Or.inl (h2 ▸ h1)
    · rcases hbc with h2 | ⟨h2, h2'⟩
      · exact Or.inl (h1 ▸ h2)
      · exact Or.inr ⟨h1.trans h2, h1'.trans h2'⟩

/-- `dequeueMessages` from `src/db/message_queue.ts`: rows where
`target = ? AND next_attempt <= now AND attempts < max_attempts`,
ordered by `priority DESC, next_attempt ASC`, limited to `limit`. -/
def dequeueMessages (db : Db) (target : ClientId) (limit : Nat)
    (now : Int) : List QueueEntry :=
  (((db.queue.filter (dequeueReady target now)).insertionSort dequeueLE).take limit)

/-- `incrementAttempts` from `src/db/message_queue.ts`: bump `attempts`
and set `next_attempt = now + delaySeconds` on the row with this
rowid. -/
def incrementAttempts (db : Db) (id : Nat) (delaySeconds : Int)
    (now : Int) : Db :=
  { db with
    queue := db.queue.map (fun q =>
      if q.id == id then
        { q with attempts := q.attempts + 1, next_attempt := now + delaySeconds }
      else q) }

/-- `removeFromQueue` from `src/db/message_queue.ts`. -/
def removeFromQueue (db : Db) (messageId : String) : Db :=
  { db with queue := db.queue.filter (fun q => q.message_id != messageId) }

/-- `clearExhaustedMessages` from `src/db/message_queue.ts`:
`DELETE FROM message_queue WHERE attempts >= max_attempts`. -/
def clearExhaustedMessages (db : Db) : Db :=
  { db with queue := db.queue.filter (fun q => !(q.max_attempts ≤ q.attempts)) }

/-! ## EventLog (`InMemoryEventStore`, transport event store source file) -/

/-- `EventRecord` from the event-store source: `id`, `ts`
(`Date.now()` milliseconds), and the JSON-RPC `message` payload
(opaque here). -/
structure EventRecord where
  id : String
  ts : Int
  message : String
deriving DecidableEq, Repr

/-- Association list standing in for a JavaScript `Map` with `String`
keys; keys are unique by construction of the operations below. -/
abbrev JsMap (α : Type) := List (String × α)

/-- `Map.get`. -/
def mapGet {α : Type} (m : JsMap α) (k : String) : Option α :=
  (m.find? (fun kv => kv.1 == k)).map (·.2)

/-- `Map.set`: replace in place when the key exists, else append. -/
def mapSet {α : Type} (m : JsMap α) (k : String) (v : α) : JsMap α :=
  match m with
  | [] => [(k, v)]
  | kv :: rest => if kv.1 == k then (k, v) :: rest else kv :: mapSet rest k v

/-- `Map.delete`. -/
def mapDelete {α : Type} (m : JsMap α) (k : String) : JsMap α :=
  m.filter (fun kv => kv.1 != k)

/-- `StreamState` from the event-store source: next sequence number,
ordered event buffer, and the auxiliary `event_id → position` index. -/
structure StreamState where
  nextSeq : Nat
  events : List EventRecord
  indexById : JsMap Nat
deriving DecidableEq, Repr

/-- Constructor options of `InMemoryEventStore` (`ttlMs ?? 15*60*1000`,
`maxEventsPerStream ?? 5000`). -/
structure EventStoreCfg where
  ttlMs : Int := 15 * 60 * 1000
  maxEventsPerStream : Nat := 5000

/-- `makeEventId`: the literal `"streamId:seq"` format. -/
def makeEventId (streamId : String) (seq : Nat) : String :=
  streamId ++ ":" ++ toString seq

/-- The scan behind `parseStreamId`: accumulate characters until the
first `:`; return `""` when none is found (the `indexOf === -1`
case). -/
def takeBeforeColon (acc : List Char) : List Char → String
  | [] => ""
  | c :: rest =>
    if c = ':' then String.mk acc.reverse else takeBeforeColon (c :: acc) rest

/-- `parseStreamId`: `eventId.slice(0, eventId.indexOf(":"))`, empty
when the id has no colon. -/
def parseStreamId (eventId : String) : String :=
  takeBeforeColon [] eventId.toList

/-- The `while (s.events.length && s.events[0].ts < cutoff)` loop of
`pruneStream`: shift expired head events, deleting each id from the
index as it goes. -/
def dropExpired (cutoff : Int) :
    List EventRecord → JsMap Nat → List EventRecord × JsMap Nat
  | [], idx => ([], idx)
  | ev :: rest, idx =>
    if ev.ts < cutoff then dropExpired cutoff rest (mapDelete idx ev.id)
    else (ev :: rest, idx)

/-- `events.forEach((ev, idx) => indexById.set(ev.id, idx))` after a
`clear()`: rebuild the index from current positions. -/
def rebuildIndex (events : List EventRecord) : JsMap Nat :=
  events.enum.map (fun p => (p.2.id, p.1))

/-- `pruneStream` from the event-store source, acting on one stream:
TTL-expire head events; rebuild the index only when
`indexById.size !== events.length`; then trim overflow beyond
`maxEventsPerStream` and rebuild (the overflow branch clears and
re-populates the index after shifting). -/
def pruneStream (cfg : EventStoreCfg) (now : Int) (s : StreamState) :
    StreamState :=
  let cutoff := now - cfg.ttlMs
  let (events, idx) := dropExpired cutoff s.events s.indexById
  let idx := if idx.length ≠ events.length then rebuildIndex events else idx
  if events.length > cfg.maxEventsPerStream then
    let overflow := events.length - cfg.maxEventsPerStream
    let events := events.drop overflow
    { s with events := events, indexById := rebuildIndex events }
  else
    { s with events := events, indexById := idx }

/-- The `streams` map of `InMemoryEventStore`. -/
abbrev Streams := JsMap StreamState

/-- `storeEvent` from the event-store source: get-or-create the stream,
prune, allocate `"streamId:nextSeq++"`, index the new event at the
current buffer length and push it.  Returns the event id. -/
def storeEvent (cfg : EventStoreCfg) (streams : Streams)
    (streamId : String) (message : String) (now : Int) :
    String × Streams :=
  let s := (mapGet streams streamId).getD
    { nextSeq := 1, events := [], indexById := [] }
  let s := pruneStream cfg now s
  let id := makeEventId streamId s.nextSeq
  let rec' : EventRecord := { id := id, ts := now, message := message }
  let s :=
    { s with
      nextSeq := s.nextSeq + 1
      indexById := mapSet s.indexById id s.events.length
      events := s.events ++ [rec'] }
  (id, mapSet streams streamId s)

/-- `replayEventsAfter` from the event-store source.  The returned
triple is (events passed to `send`, in order), the returned stream id
(`""` when no replay is possible), and the streams map after the
prune-in-place. -/
def replayEventsAfter (cfg : EventStoreCfg) (streams : Streams)
    (lastEventId : String) (now : Int) :
    List (String × String) × String × Streams :=
  if lastEventId == "" then ([], "", streams)
  else
    let streamId := parseStreamId lastEventId
    if streamId == "" then ([], "", streams)
    else
      match mapGet streams streamId with
      | none => ([], "", streams)
      | some s =>
        let s := pruneStream cfg now s
        let streams := mapSet streams streamId s
        match mapGet s.indexById lastEventId with
        | none => ([], "", streams)
        | some startIdx =>
          let sent := (s.events.drop (startIdx + 1)).map
            (fun ev => (ev.id, ev.message))
          (sent, streamId, streams)

/-! ## Agent personas (`src/agents/`) -/

/-- `AgentPersona` from `src/agents/types.ts` (the long
`baseInstructions` prompt strings are abbreviated to their first line;
no claim depends on the prompt text). -/
structure AgentPersona where
  name : String
  description : String
  category : String
  baseInstructions : String
  triggers : List String
  sandbox : Option String := none
deriving DecidableEq, Repr

/-- `ARCHITECT` from `src/agents/personas/architect.ts`. -/
def ARCHITECT : AgentPersona :=
  { name := "architect"
    description := "Critical code reviewer and design advisor"
    category := "advisor"
    triggers := ["architecture", "design", "review", "should we", "approach", "refactor"]
    baseInstructions :=
      "You are the ARCHITECT - a critical technical partner working with Claude through tulayngmamamo." }

/-- `ORACLE` from `src/agents/personas/oracle.ts`. -/
def ORACLE : AgentPersona :=
  { name := "oracle"
    description := "Strategic reasoning for debugging and complex problems"
    category := "advisor"
    triggers := ["why", "debug", "investigate", "understand", "root cause", "explain"]
    baseInstructions :=
      "You are the ORACLE - a strategic technical advisor working with Claude through tulayngmamamo." }

/-- `AGENT_PERSONAS` lookup plus default from `src/agents/registry.ts`:
`getAgent` returns the named persona when the name is in the registry,
else the default `architect`. -/
def getAgent (name : Option String) : AgentPersona :=
  match name with
  | some "architect" => ARCHITECT
  | some "oracle" => ORACLE
  | _ => ARCHITECT

/-- JavaScript `String.prototype.startsWith` on character lists. -/
def charsStartWith : List Char → List Char → Bool
  | [], _ => true
  | _ :: _, [] => false
  | a :: as, b :: bs => a == b && charsStartWith as bs

/-- JavaScript `String.prototype.includes` (substring search):
`strIncludes hay needle`. -/
def strIncludes (hay needle : String) : Bool :=
  go needle.toList hay.toList
where
  go (needle : List Char) : List Char → Bool
    | [] => charsStartWith needle []
    | c :: rest => charsStartWith needle (c :: rest) || go needle rest

/-- JavaScript `String.prototype.toLowerCase` (ASCII range), applied
character-wise. -/
def strToLower (s : String) : String :=
  String.mk (s.toList.map Char.toLower)

/-- `oracleTriggers` from `selectAgent` in `src/agents/registry.ts`. -/
def oracleTriggers : List String :=
  ["why", "debug", "investigate", "root cause", "understand", "explain",
   "failing", "broken", "not working", "error", "bug"]

/-- The `for (const trigger of oracleTriggers)` loop of `selectAgent`:
return `ORACLE` on the first trigger contained in the lowered content. -/
def selectAgentLoop (lower : String) : List String → AgentPersona
  | [] => ARCHITECT
  | trig :: rest =>
    if strIncludes lower trig then ORACLE else selectAgentLoop lower rest

/-- `selectAgent` from `src/agents/registry.ts`: lowercase the content
and scan the oracle triggers; default to `ARCHITECT`. -/
def selectAgent (content : String) : AgentPersona :=
  selectAgentLoop (strToLower content) oracleTriggers

/-! ## QueueProcessor (`src/router/queueProcessor.ts` source) -/

/-- Result of `QueueProcessor.attemptDelivery`. -/
inductive DeliveryResult
  | delivered
  | retry
  | removed
deriving DecidableEq, Repr

/-- `QueueProcessor.scheduleRetry`:
`delay = min(30 * 2^attempts, 3600)` seconds, then
`incrementAttempts(id, delay)`. -/
def scheduleRetry (db : Db) (item : QueueEntry) (now : Int) : Db :=
  let baseDelay : Int := 30
  let backoffDelay : Int := baseDelay * 2 ^ item.attempts
  let maxDelay : Int := 3600
  let delay := min backoffDelay maxDelay
  incrementAttempts db item.id delay now

/-- `QueueProcessor.attemptDelivery`: missing message → remove;
target (checked against the database `clients.status`) now offline →
retry with backoff; else mark delivered and remove from the queue. -/
def attemptDelivery (db : Db) (target : ClientId) (item : QueueEntry)
    (now : Int) : Db × DeliveryResult :=
  match getMessage db item.message_id with
  | none => (removeFromQueue db item.message_id, DeliveryResult.removed)
  | some message =>
    if !isClientOnline db target then
      (scheduleRetry db item now, DeliveryResult.retry)
    else
      let db := updateMessageStatus db message.id MessageStatus.delivered now
      (removeFromQueue db item.message_id, DeliveryResult.delivered)

/-- `QueueProcessor.processQueueForTarget`: return unchanged when
`isClientOnline(db, target)` is false (a database read, not the
in-memory `ClientRegistry`); else dequeue up to 10 entries and attempt
each delivery in order. -/
def processQueueForTarget (db : Db) (target : ClientId) (now : Int) : Db :=
  if !isClientOnline db target then db
  else
    let queued := dequeueMessages db target 10 now
    queued.foldl (fun acc item => (attemptDelivery acc target item now).1) db

/-- `QueueProcessor.processQueue`: both targets of `CLIENTS` in order. -/
def processQueue (db : Db) (now : Int) : Db :=
  processQueueForTarget (processQueueForTarget db ClientId.claude now)
    ClientId.codex now

/-! ## ClientRegistry (`src/mcp/clientRegistry.ts`) -/

/-- The in-memory `ClientRegistry`: `Map<ClientId, string>` of client id
to live session id. -/
def Registry := ClientId → Option String

/-- `ClientRegistry.isOnline`: membership in the in-memory map. -/
def regIsOnline (reg : Registry) (clientId : ClientId) : Bool :=
  (reg clientId).isSome

/-! ## MessageDispatcher (`src/router/dispatcher.ts` source) -/

/-- `getConversationMessages` ordering (`ORDER BY created_at ASC`). -/
def createdLE (a b : Message) : Prop := a.created_at ≤ b.created_at

instance : DecidableRel createdLE := fun a b => by
  unfold createdLE; infer_instance

instance : IsTotal Message createdLE where
  total a b := le_total a.created_at b.created_at

instance : IsTrans Message createdLE where
  trans _ _ _ hab hbc := le_trans hab hbc

/-- `getConversationMessages` from `src/db/messages.ts`:
`WHERE conversation_id = ? ORDER BY created_at ASC LIMIT ? OFFSET ?`
with defaults `limit = 50`, `offset = 0`. -/
def getConversationMessages (db : Db) (conversationId : String)
    (limit : Nat := 50) (offset : Nat := 0) : List Message :=
  ((((db.messages.filter (fun m => m.conversation_id == conversationId))).insertionSort
      createdLE).drop offset).take limit

/-- Rendering of a `ClientId` as its wire string. -/
def ClientId.str : ClientId → String
  | ClientId.claude => "claude"
  | ClientId.codex => "codex"

/-- `MessageDispatcher.buildConversationContext`: last messages of the
conversation rendered `"[sender]: content"` and joined by blank
lines. -/
def buildConversationContext (db : Db) (conversationId : String) : String :=
  let messages := getConversationMessages db conversationId 20
  if messages.isEmpty then ""
  else String.intercalate "\n\n"
    (messages.map (fun m => "[" ++ m.sender.str ++ "]: " ++ m.content))

/-- `SendMessageOpts` from the dispatcher source.  `agent` keeps the
wire string of the requested persona. -/
structure SendMessageOpts where
  conversationId : Option String := none
  sender : ClientId
  target : ClientId
  content : String
  messageType : Option MessageType := none
  priority : Option MessagePriority := none
  waitForResponse : Option Bool := none
  timeoutMs : Option Int := none
  useOutputSchema : Option Bool := none
  metadata : Option String := none
  agent : Option String := none

/-- The persona selection of `MessageDispatcher.sendMessage`:
`opts.agent ? getAgent(opts.agent) : selectAgent(opts.content)`. -/
def selectPersonaForSend (agent : Option String) (content : String) :
    AgentPersona :=
  match agent with
  | some a => getAgent (some a)
  | none => selectAgent content

/-- `MessageDispatcher.getResponseType`: map a request type to its
response type; anything else to plain `message`. -/
def getResponseType (requestType : Option MessageType) : MessageType :=
  match requestType with
  | some MessageType.research_request => MessageType.research_response
  | some MessageType.review_request => MessageType.review_response
  | _ => MessageType.message

/-- Outcome of `invokeCodexExec` as observed by the dispatcher
(`response`, `success`, `stderr`); the subprocess itself is outside the
embedded state. -/
structure InvocationResult where
  response : Option String
  success : Bool
  stderr : Option String

/-- `SendMessageResult` from the dispatcher source (the `message` and
`conversation` rows are read off the returned database state). -/
structure SendMessageResult where
  message : Message
  conversation : Conversation
  response : Option Message := none
  invoked : Bool := false
  invokedViaMcp : Bool := false
  invocationError : Option String := none
  selectedAgent : Option String := none

/-- `priorityMap` of the enqueue branch: `urgent = 2, high = 1,
normal = 0`. -/
def priorityMap : MessagePriority → Int
  | MessagePriority.urgent => 2
  | MessagePriority.high => 1
  | MessagePriority.normal => 0

/-- The body of `MessageDispatcher.sendMessage` after conversation
resolution: create the message in state `pending`, then route it.
Effects outside the store are threaded as oracles: `newMsgId` and
`respMsgId` stand for `randomUUID()`, `mcpResult` for the value of
`tryCodexMcpServer` (null on disabled client, connection failure, or
empty response), and `execResult` for `invokeCodexExec`.  The final
wait-for-response polling loop only reads the store, so it is omitted
from the state function. -/
def sendMessageWith (db : Db) (reg : Registry) (opts : SendMessageOpts)
    (newMsgId respMsgId : String) (now : Int)
    (mcpResult : Option String) (execResult : InvocationResult)
    (conversation : Conversation) : Db × SendMessageResult :=
  -- Create the message
  let created := createMessage db
    { conversation_id := conversation.id
      sender := opts.sender
      target := opts.target
      content := opts.content
      message_type := opts.messageType
      priority := opts.priority
      metadata := opts.metadata } newMsgId now
  let db := created.1
  let message := created.2
  let result : SendMessageResult := { message := message, conversation := conversation }
  -- Routing decision: the dispatcher uses the in-memory registry here
  let targetOnline := regIsOnline reg opts.target
  if targetOnline then
    (updateMessageStatus db message.id MessageStatus.delivered now, result)
  else if opts.target == ClientId.codex then
    let persona := selectPersonaForSend opts.agent opts.content
    let result := { result with selectedAgent := some persona.name }
    match mcpResult with
    | some mcpText =>
      let createdResp := createMessage db
        { conversation_id := conversation.id
          sender := opts.target
          target := opts.sender
          content := mcpText
          message_type := some (getResponseType opts.messageType)
          response_to_id := some message.id } respMsgId now
      (updateMessageStatus createdResp.1 message.id MessageStatus.responded now,
       { result with invoked := true, invokedViaMcp := true,
                     response := some createdResp.2 })
    | none =>
      let result := { result with invoked := true }
      match execResult.response with
      | some execText =>
        let createdResp := createMessage db
          { conversation_id := conversation.id
            sender := opts.target
            target := opts.sender
            content := execText
            message_type := some (getResponseType opts.messageType)
            response_to_id := some message.id } respMsgId now
        (updateMessageStatus createdResp.1 message.id MessageStatus.responded now,
         { result with response := some createdResp.2 })
      | none =>
        if !execResult.success then
          let errText := execResult.stderr.getD "Invocation failed with no output"
          (db, { result with invocationError := some errText })
        else
          (db, result)
  else
    let enq := enqueueMessage db
      { message_id := message.id
        target := opts.target
        priority := some (priorityMap (opts.priority.getD MessagePriority.normal))
        max_attempts := some 5 } now
    (enq.1, result)

/-- `MessageDispatcher.sendMessage` (routing phase): resolve or create
the conversation (`newConvId` stands for the fresh `randomUUID()`),
failing with `Conversation not found` when a supplied id does not
exist, then run the routing body `sendMessageWith`, which never
throws. -/
def sendMessage (db : Db) (reg : Registry) (opts : SendMessageOpts)
    (newConvId newMsgId respMsgId : String) (now : Int)
    (mcpResult : Option String) (execResult : InvocationResult) :
    Except String (Db × SendMessageResult) :=
  match opts.conversationId with
  | some cid =>
    match getConversation db cid with
    | none => Except.error ("Conversation not found: " ++ cid)
    | some existing =>
      Except.ok (sendMessageWith db reg opts newMsgId respMsgId now
        mcpResult execResult existing)
  | none =>
    let createdConv := createConversation db { created_by := opts.sender } newConvId now
    Except.ok (sendMessageWith createdConv.1 reg opts newMsgId respMsgId now
      mcpResult execResult createdConv.2)

/-! ## `mark_message_read` tool handler (`src/mcp/identity.ts`) -/

/-- The `mark_message_read` tool handler from `src/mcp/identity.ts`:
requires an identified caller, an existing message, and
`message.target == clientId`; then `updateMessageStatus(id, "read")`. -/
def markMessageRead (db : Db) (caller : Option ClientId)
    (messageId : String) (now : Int) : Except String Db :=
  match caller with
  | none => Except.error "Unknown client"
  | some clientId =>
    match getMessage db messageId with
    | none => Except.error "Message not found"
    | some message =>
      if message.target ≠ clientId then
        Except.error "Cannot mark message as read: not the target"
      else
        Except.ok (updateMessageStatus db messageId MessageStatus.read now)

/-! ## CodexMcpClient response extraction (`src/router/codexMcpClient.ts`) -/

/-- One element of a tool result's `content[]`.  `text = none` models a
missing `text` property (the `"text" in item` check). -/
structure ContentItem where
  type : String
  text : Option String
deriving DecidableEq, Repr

/-- The legacy `toolResult` property: a string, or an object whose
`response` property is present (`some`) or absent (`none`). -/
inductive ToolResultVal
  | str (s : String)
  | obj (response : Option String)
deriving DecidableEq, Repr

/-- The shape of a `CallToolResult` as inspected by
`extractResponse`: an optional `content` array and an optional legacy
`toolResult`. -/
structure CallToolResult where
  content : Option (List ContentItem) := none
  toolResult : Option ToolResultVal := none
deriving DecidableEq, Repr

/-- The `for (const item of r.content)` scan of `extractResponse`:
first item with `type === "text"` and a `text` property, returned
verbatim. -/
def findTextItem : List ContentItem → Option String
  | [] => none
  | item :: rest =>
    if item.type == "text" && item.text.isSome then item.text
    else findTextItem rest

/-- `JSON.parse` combined with the `.response` truthiness test, as an
oracle: `none` = parse throws; `some none` = parses but has no truthy
`response`; `some (some v)` = parses with truthy `response = v`.
`JSON.parse` is library code outside this repository. -/
def JsonParse := String → Option (Option String)

/-- `CodexMcpClient.extractResponse` from
`src/router/codexMcpClient.ts`, in source order: (1) first
`type === "text"` content item returned verbatim; (2) truthy legacy
`toolResult` as a string or its `response` property; (3) only then, a
JSON re-parse of `content[0].text` looking for a `response` field,
returning the text verbatim when the parse throws, and `null` when it
parses without a truthy `response`. -/
def extractResponse (parse : JsonParse) (result : Option CallToolResult) :
    Option String :=
  match result with
  | none => none
  | some r =>
    match (r.content.map findTextItem).join with
    | some t => some t
    | none =>
      let fromToolResult : Option String :=
        match r.toolResult with
        | some (ToolResultVal.str s) => if s == "" then none else some s
        | some (ToolResultVal.obj (some resp)) => some resp
        | _ => none
      match fromToolResult with
      | some s => some s
      | none =>
        match r.content with
        | some (first :: _) =>
          match first.text with
          | some t =>
            if t == "" then none
            else
              match parse t with
              | none => some t
              | some (some resp) => some resp
              | some none => none
          | none => none
        | _ => none

/-- Modelled from the spec (§4.7): "search result `content[]` for an
item of type `text`; if the text parses as JSON with a `response`
field, return that; else return the text verbatim."  Stated for
comparison with `extractResponse` above. -/
def extractResponseSpec (parse : JsonParse) (result : Option CallToolResult) :
    Option String :=
  match result with
  | none => none
  | some r =>
    match (r.content.map findTextItem).join with
    | none => none
    | some t =>
      match parse t with
      | some (some resp) => some resp
      | _ => some t

/-! ## Spec-side comparison definitions -/

/-- Modelled from the spec (§3): the monotonic status order
`pending → delivered → read → responded`, as a rank.  Used only to
state the monotonicity claim; the source has no such function. -/
def statusRank : MessageStatus → Nat
  | MessageStatus.pending => 0
  | MessageStatus.delivered => 1
  | MessageStatus.read => 2
  | MessageStatus.responded => 3

/-- `needle` occurs as a contiguous substring of `hay`. -/
def IsSubstr (needle hay : String) : Prop :=
  ∃ s t : List Char, hay.toList = s ++ needle.toList ++ t

/-! ## Concrete fixtures for counterexamples and witnesses -/

/-- An all-offline database with no rows: the base of several
fixtures. -/
def emptyDb : Db :=
  { clients := fun _ => ClientStatus.offline
    conversations := []
    messages := []
    queue := []
    nextQueueRowId := 1 }

/-- Event-store configuration with a 100 ms TTL, used to exercise the
TTL prune. -/
def c1Cfg : EventStoreCfg := { ttlMs := 100, maxEventsPerStream := 5000 }

/-- Stream map after storing three events on stream `s` at times 0, 50
and 60. -/
def c1Streams : Streams :=
  let s1 := (storeEvent c1Cfg [] "s" "m1" 0).2
  let s2 := (storeEvent c1Cfg s1 "s" "m2" 50).2
  (storeEvent c1Cfg s2 "s" "m3" 60).2

/-- Replay after `s:2` at time 150: the TTL prune drops the event
stored at time 0. -/
def c1Replay : List (String × String) × String × Streams :=
  replayEventsAfter c1Cfg c1Streams "s:2" 150

/-- Registry with nobody online. -/
def regAllOffline : Registry := fun _ => none

/-- Registry with both assistants online. -/
def regAllOnline : Registry := fun c => some (c.str ++ "-session")

/-- Database for the C2 counterexample: the persisted `clients.status`
says `claude` is online while the in-memory registry
(`regAllOffline`) says offline; one pending message for `claude` sits
in the queue, ready. -/
def c2Db : Db :=
  { clients := fun c =>
      match c with
      | ClientId.claude => ClientStatus.online
      | ClientId.codex => ClientStatus.offline
    conversations := []
    messages :=
      [{ id := "m1", conversation_id := "conv1", sender := ClientId.codex,
         target := ClientId.claude, content := "ping",
         message_type := MessageType.message, priority := MessagePriority.normal,
         status := MessageStatus.pending, response_to_id := none,
         created_at := 0, delivered_at := none, read_at := none, metadata := none }]
    queue :=
      [{ id := 1, message_id := "m1", target := ClientId.claude, priority := 0,
         attempts := 0, max_attempts := 5, next_attempt := 0, created_at := 0 }]
    nextQueueRowId := 2 }

/-- A message already in status `responded`, targeted at `claude`. -/
def c3Msg : Message :=
  { id := "m1", conversation_id := "conv1", sender := ClientId.codex,
    target := ClientId.claude, content := "ping",
    message_type := MessageType.message, priority := MessagePriority.normal,
    status := MessageStatus.responded, response_to_id := none,
    created_at := 0, delivered_at := some 1, read_at := none, metadata := none }

/-- Database for the C3 counterexample: holds exactly `c3Msg`. -/
def c3Db : Db := { emptyDb with messages := [c3Msg] }

/-- A `delivered` message targeted at `claude`, for the C3 witness. -/
def c3WitnessMsg : Message :=
  { c3Msg with status := MessageStatus.delivered }

/-- Database for the C3 witness: holds exactly `c3WitnessMsg`. -/
def c3WitnessDb : Db := { emptyDb with messages := [c3WitnessMsg] }

/-- A conversation whose status is `completed`, for the C4
counterexample. -/
def c4Conv : Conversation :=
  { id := "conv1", title := none, project := none,
    status := ConversationStatus.completed, created_by := ClientId.claude,
    created_at := 0, updated_at := 0, closed_at := some 3,
    summary := none, metadata := none }

/-- Database for the C4 counterexample: holds exactly `c4Conv`. -/
def c4Db : Db := { emptyDb with conversations := [c4Conv] }

/-- Dispatch options for the C4 counterexample: send into the completed
conversation `conv1` with the target online. -/
def c4Opts : SendMessageOpts :=
  { conversationId := some "conv1"
    sender := ClientId.claude
    target := ClientId.codex
    content := "hello" }

/-- An invocation-result oracle that produced nothing. -/
def execNone : InvocationResult :=
  { response := none, success := false, stderr := none }

/-- The dispatcher output of the C4 counterexample run. -/
def c4Out : Except String (Db × SendMessageResult) :=
  sendMessage c4Db regAllOnline c4Opts "cNew" "mNew" "rNew" 5 none execNone

/-- Dispatch options for the C5 witness: high-priority send to an
offline `claude`. -/
def c5Opts : SendMessageOpts :=
  { sender := ClientId.codex
    target := ClientId.claude
    content := "ping"
    priority := some MessagePriority.high }

/-- The dispatcher output of the C5 witness run. -/
def c5Out : Except String (Db × SendMessageResult) :=
  sendMessage emptyDb regAllOffline c5Opts "cNew" "mNew" "rNew" 7 none execNone

/-- Queue entry for the C6 witness: two failed attempts so far. -/
def c6Item : QueueEntry :=
  { id := 1, message_id := "m1", target := ClientId.claude, priority := 0,
    attempts := 2, max_attempts := 5, next_attempt := 0, created_at := 0 }

/-- Database for the C6 witness: the queue holds exactly `c6Item`. -/
def c6Db : Db := { emptyDb with queue := [c6Item] }

/-- A ready normal-priority queue row for the C7 witness. -/
def c7RowA : QueueEntry :=
  { id := 1, message_id := "a", target := ClientId.claude, priority := 0,
    attempts := 0, max_attempts := 5, next_attempt := 10, created_at := 0 }

/-- A ready high-priority queue row for the C7 witness. -/
def c7RowB : QueueEntry :=
  { id := 2, message_id := "b", target := ClientId.claude, priority := 1,
    attempts := 0, max_attempts := 5, next_attempt := 20, created_at := 0 }

/-- An exhausted queue row (attempts = max) for the C7 witness. -/
def c7RowC : QueueEntry :=
  { id := 3, message_id := "c", target := ClientId.claude, priority := 2,
    attempts := 5, max_attempts := 5, next_attempt := 0, created_at := 0 }

/-- A not-yet-due queue row for the C7 witness. -/
def c7RowD : QueueEntry :=
  { id := 4, message_id := "d", target := ClientId.claude, priority := 2,
    attempts := 0, max_attempts := 5, next_attempt := 999, created_at := 0 }

/-- Queue for the C7 witness: ready normal, ready high, exhausted,
not-yet-due. -/
def c7Db : Db :=
  { emptyDb with queue := [c7RowA, c7RowB, c7RowC, c7RowD] }

/-- A text content item whose payload is a JSON object with a
`response` field (braces written as escapes). -/
def c8Json : String := "\x7b\"response\":\"hi\"\x7d"

/-- Parse oracle matching `c8Json`: that string parses as JSON with
truthy `response = "hi"`; everything else throws. -/
def c8Parse : JsonParse :=
  fun s => if s == c8Json then some (some "hi") else none

/-- Tool-call result whose only content item is a `text` item carrying
`c8Json`. -/
def c8Result : CallToolResult :=
  { content := some [{ type := "text", text := some c8Json }] }

/-- Tool-call result for the C8 witness: a plain-text item. -/
def c8PlainResult : CallToolResult :=
  { content := some [{ type := "log", text := some "noise" },
                     { type := "text", text := some "plain answer" }] }

/-! ## Helper lemmas -/

theorem applyStatus_id (id : String) (st : MessageStatus) (now : Int)
    (m : Message) : (applyStatus id st now m).id = m.id := by
  unfold applyStatus
  split_ifs <;> rfl

theorem applyStatus_conversation_id (id : String) (st : MessageStatus)
    (now : Int) (m : Message) :
    (applyStatus id st now m).conversation_id = m.conversation_id := by
  unfold applyStatus
  split_ifs <;> rfl

theorem applyStatus_status_of_match (id : String) (st : MessageStatus)
    (now : Int) (m : Message) (h : (m.id == id) = true) :
    (applyStatus id st now m).status = st := by
  unfold applyStatus
  rw [if_pos h]
  split_ifs <;> rfl

theorem find_map_applyStatus (l : List Message) (id : String)
    (st : MessageStatus) (now : Int) :
    ((l.map (applyStatus id st now)).find? (fun m => m.id == id)).map
        Message.status
      = (l.find? (fun m => m.id == id)).map (fun _ => st) := by
  induction l with
  | nil => rfl
  | cons m rest ih =>
    by_cases h : (m.id == id) = true
    · simp only [List.map_cons, List.find?]
      rw [applyStatus_id, h]
      simp only [Option.map_some']
      rw [applyStatus_status_of_match id st now m h]
    · simp only [List.map_cons, List.find?]
      rw [applyStatus_id, Bool.of_not_eq_true h]
      exact ih

theorem getMessage_updateMessageStatus (db : Db) (id : String)
    (st : MessageStatus) (now : Int) :
    (getMessage (updateMessageStatus db id st now) id).map Message.status
      = (getMessage db id).map (fun _ => st) := by
  unfold getMessage updateMessageStatus
  exact find_map_applyStatus db.messages id st now

/-! ## C1: event-log prune / replay -/

/-- C1: the claim says that after any prune that drops entries the
`event_id → position` index is rebuilt, so that `replay_after` with an
anchor still in the buffer sends exactly the events positioned strictly
after the anchor.  The code violates this: the TTL prune of
`pruneStream` deletes index keys in lockstep with the shifted events,
so the `indexById.size !== events.length` rebuild guard never fires and
surviving entries keep their stale pre-prune positions.  Here, after
storing events at times 0, 50, 60 with a 100 ms TTL, a replay after
`s:2` at time 150 drops the first event; the anchor `s:2` is still in
the buffer (current position 0, followed by `s:3`), but its index entry
still reads 1, and the replay sends nothing instead of `s:3`. -/
theorem eventlog_stale_index_after_ttl_prune :
    c1Replay.1 = [] ∧
    c1Replay.2.1 = "s" ∧
    (mapGet c1Replay.2.2 "s").map (fun s => s.events.map EventRecord.id)
      = some ["s:2", "s:3"] ∧
    (mapGet c1Replay.2.2 "s").bind (fun s => mapGet s.indexById "s:2")
      = some 1 := by
  refine ⟨rfl, rfl, rfl, rfl⟩

/-! ## C2: QueueProcessor availability source -/

/-- C2 counterexample: the claim says the drain decides availability
via the in-memory `ClientRegistry`.  In the code
(`processQueueForTarget`) the check is `isClientOnline(db, target)` -
the persisted `clients.status` column.  With the registry saying
`claude` is offline but the database column saying online, the drain
still dequeues and delivers. -/
theorem queueprocessor_ignores_registry :
    regIsOnline regAllOffline ClientId.claude = false ∧
    (processQueueForTarget c2Db ClientId.claude 50).queue = [] ∧
    (getMessage (processQueueForTarget c2Db ClientId.claude 50) "m1").map
        Message.status = some MessageStatus.delivered ∧
    c2Db.queue ≠ [] := by
  refine ⟨rfl, rfl, rfl, by decide⟩

/-- C2 (amended): the QueueProcessor decides target availability via
the database `clients.status` column (`isClientOnline`), not the
in-memory registry: dequeue happens only when the column says online;
`attemptDelivery` re-checks that column before marking delivered and
schedules a retry when it now says offline. -/
theorem queueprocessor_gates_on_db_status :
    ∀ (db : Db) (t : ClientId) (now : Int),
    (isClientOnline db t = false → processQueueForTarget db t now = db) ∧
    (isClientOnline db t = true →
      processQueueForTarget db t now =
        (dequeueMessages db t 10 now).foldl
          (fun acc item => (attemptDelivery acc t item now).1) db) ∧
    (∀ item m, getMessage db item.message_id = some m →
      isClientOnline db t = false →
      attemptDelivery db t item now = (scheduleRetry db item now, DeliveryResult.retry)) ∧
    (∀ item m, getMessage db item.message_id = some m →
      isClientOnline db t = true →
      attemptDelivery db t item now =
        (removeFromQueue (updateMessageStatus db m.id MessageStatus.delivered now)
          item.message_id, DeliveryResult.delivered)) := by
  intro db t now
  refine ⟨?_, ?_, ?_, ?_⟩
  · intro h
    simp [processQueueForTarget, h]
  · intro h
    simp [processQueueForTarget, h]
  · intro item m hm h
    simp [attemptDelivery, hm, h]
  · intro item m hm h
    simp [attemptDelivery, hm, h]

/-- C2 witness: the amended theorem applied to the all-offline empty
database: the drain leaves the state untouched. -/
theorem queueprocessor_gates_on_db_status_witness :
    processQueueForTarget emptyDb ClientId.claude 0 = emptyDb :=
  (queueprocessor_gates_on_db_status emptyDb ClientId.claude 0).1 rfl

/-! ## C3: status monotonicity -/

/-- C3 counterexample: the claim says no operation moves a message's
status backwards along `pending → delivered → read → responded`.  But
`updateMessageStatus` writes unconditionally, so `mark_message_read`
called by the target on a message already in status `responded` moves
it back to `read`. -/
theorem mark_read_moves_status_backwards :
    (getMessage c3Db "m1").map Message.status = some MessageStatus.responded ∧
    (markMessageRead c3Db (some ClientId.claude) "m1" 7).toOption.map
        (fun db' => (getMessage db' "m1").map Message.status)
      = some (some MessageStatus.read) ∧
    statusRank MessageStatus.read < statusRank MessageStatus.responded := by
  refine ⟨rfl, rfl, by decide⟩

/-- C3 (amended): status writes are unconditional -
`update_message_status` performs no forward-only transition check, so
statuses can move backwards (in particular `mark_message_read` returns
a `responded` message to `read`); `mark_message_read` still succeeds
exactly when the caller equals the message's target, and on success the
found message is stored with status `read` and `read_at` stamped. -/
theorem mark_read_guard_and_unconditional_write :
    ∀ (db : Db) (caller : Option ClientId) (mid : String) (now : Int),
    ((∃ db', markMessageRead db caller mid now = Except.ok db') ↔
        ∃ m, getMessage db mid = some m ∧ caller = some m.target) ∧
    (∀ db', markMessageRead db caller mid now = Except.ok db' →
        ∀ m, getMessage db mid = some m →
          { m with status := MessageStatus.read, read_at := some now }
            ∈ db'.messages) ∧
    (∀ st, (getMessage db mid).isSome = true →
        (getMessage (updateMessageStatus db mid st now) mid).map
          Message.status = some st) := by
  intro db caller mid now
  refine ⟨?_, ?_, ?_⟩
  · constructor
    · rintro ⟨db', h⟩
      cases caller with
      | none => exact absurd h (by simp [markMessageRead])
      | some clientId =>
        cases hg : getMessage db mid with
        | none =>
          simp only [markMessageRead, hg] at h
          exact absurd h (by simp)
        | some m =>
          simp only [markMessageRead, hg] at h
          by_cases ht : m.target = clientId
          · exact ⟨m, rfl, by rw [ht]⟩
          · rw [if_pos ht] at h
            exact absurd h (by simp)
    · rintro ⟨m, hm, hc⟩
      subst hc
      refine ⟨updateMessageStatus db mid MessageStatus.read now, ?_⟩
      simp only [markMessageRead, hm]
      rw [if_neg (fun hne => hne rfl)]
  · intro db' h m hm
    cases caller with
    | none => exact absurd h (by simp [markMessageRead])
    | some clientId =>
      simp only [markMessageRead, hm] at h
      by_cases ht : m.target = clientId
      · rw [if_neg (fun hne => hne ht)] at h
        have hm' : db.messages.find? (fun x => x.id == mid) = some m := hm
        have hmem : m ∈ db.messages := List.mem_of_find?_eq_some hm'
        have hpred := List.find?_some hm'
        have himg := List.mem_map_of_mem (applyStatus mid MessageStatus.read now) hmem
        have heq : applyStatus mid MessageStatus.read now m
            = { m with status := MessageStatus.read, read_at := some now } := by
          unfold applyStatus
          rw [if_pos hpred]
          rfl
        rw [← Except.ok.inj h]
        exact heq ▸ himg
      · rw [if_pos ht] at h
        exact absurd h (by simp)
  · intro st h
    rw [getMessage_updateMessageStatus]
    cases hg : getMessage db mid with
    | none => rw [hg] at h; simp at h
    | some m => rfl

/-- C3 witness: the amended theorem applied to a `delivered` message
whose target calls `mark_message_read`: the stored row becomes `read`
with `read_at` stamped. -/
theorem mark_read_guard_witness :
    { c3WitnessMsg with status := MessageStatus.read, read_at := some 9 }
      ∈ (updateMessageStatus c3WitnessDb "m1" MessageStatus.read 9).messages :=
  (mark_read_guard_and_unconditional_write c3WitnessDb (some ClientId.claude)
    "m1" 9).2.1 (updateMessageStatus c3WitnessDb "m1" MessageStatus.read 9)
    rfl c3WitnessMsg rfl

/-! ## C4: conversation status at message creation -/

theorem mem_createMessage_new (db : Db) (input : CreateMessageInput)
    (uuid : String) (now : Int) :
    (createMessage db input uuid now).2 ∈ (createMessage db input uuid now).1.messages := by
  simp [createMessage]

theorem mem_createMessage_old (db : Db) (input : CreateMessageInput)
    (uuid : String) (now : Int) (m : Message) (h : m ∈ db.messages) :
    m ∈ (createMessage db input uuid now).1.messages := by
  simp [createMessage]
  exact Or.inl h

theorem mem_updateMessageStatus_image (db : Db) (id : String)
    (st : MessageStatus) (now : Int) (m : Message) (h : m ∈ db.messages) :
    applyStatus id st now m ∈ (updateMessageStatus db id st now).messages :=
  List.mem_map_of_mem _ h

/-- The routing body always records the conversation it was given and
inserts a message carrying `newMsgId` into that conversation,
whatever the conversation's status is. -/
theorem sendMessageWith_inserts (db : Db) (reg : Registry)
    (opts : SendMessageOpts) (newMsgId respMsgId : String) (now : Int)
    (mcp : Option String) (exec : InvocationResult) (conversation : Conversation) :
    (sendMessageWith db reg opts newMsgId respMsgId now mcp exec
        conversation).2.conversation = conversation ∧
    (sendMessageWith db reg opts newMsgId respMsgId now mcp exec
        conversation).2.message.id = newMsgId ∧
    ∃ m', m' ∈ (sendMessageWith db reg opts newMsgId respMsgId now mcp exec
        conversation).1.messages ∧
      m'.id = newMsgId ∧ m'.conversation_id = conversation.id := by
  unfold sendMessageWith
  set created := createMessage db
    { conversation_id := conversation.id
      sender := opts.sender
      target := opts.target
      content := opts.content
      message_type := opts.messageType
      priority := opts.priority
      metadata := opts.metadata } newMsgId now with hcr
  have hnew : created.2 ∈ created.1.messages := mem_createMessage_new _ _ _ _
  have hid : created.2.id = newMsgId := by rw [hcr]; rfl
  have hcid : created.2.conversation_id = conversation.id := by rw [hcr]; rfl
  by_cases h1 : regIsOnline reg opts.target
  · simp only [h1, if_true]
    refine ⟨by trivial, hid, ?_⟩
    refine ⟨applyStatus created.2.id MessageStatus.delivered now created.2, ?_, ?_, ?_⟩
    · exact mem_updateMessageStatus_image _ _ _ _ _ hnew
    · rw [applyStatus_id]; exact hid
    · rw [applyStatus_conversation_id]; exact hcid
  · simp only [h1, if_false]
    by_cases h2 : (opts.target == ClientId.codex) = true
    · simp only [h2, if_true]
      cases mcp with
      | some mcpText =>
        refine ⟨by trivial, hid, ?_⟩
        refine ⟨applyStatus created.2.id MessageStatus.responded now created.2, ?_, ?_, ?_⟩
        · exact mem_updateMessageStatus_image _ _ _ _ _
            (mem_createMessage_old _ _ _ _ _ hnew)
        · rw [applyStatus_id]; exact hid
        · rw [applyStatus_conversation_id]; exact hcid
      | none =>
        cases hr : exec.response with
        | some execText =>
          refine ⟨by trivial, hid, ?_⟩
          refine ⟨applyStatus created.2.id MessageStatus.responded now created.2, ?_, ?_, ?_⟩
          · exact mem_updateMessageStatus_image _ _ _ _ _
              (mem_createMessage_old _ _ _ _ _ hnew)
          · rw [applyStatus_id]; exact hid
          · rw [applyStatus_conversation_id]; exact hcid
        | none =>
          by_cases hs : (!exec.success) = true
          · simp only [hs, if_true]
            exact ⟨by trivial, hid, created.2, hnew, hid, hcid⟩
          · simp only [hs, if_false]
            exact ⟨by trivial, hid, created.2, hnew, hid, hcid⟩
    · simp only [h2, if_false]
      exact ⟨by trivial, hid, created.2, hnew, hid, hcid⟩

/-- C4 counterexample: the claim says a message is never inserted into
a conversation whose status is `completed` or `archived`.  The
dispatcher checks only that a supplied conversation exists:
dispatching into the completed conversation `conv1` succeeds and
inserts a message there. -/
theorem send_inserts_into_completed_conversation :
    (getConversation c4Db "conv1").map Conversation.status
      = some ConversationStatus.completed ∧
    c4Db.messages.length = 0 ∧
    c4Out.toOption.map
        (fun p => (p.1.messages.filter
          (fun m => m.conversation_id == "conv1")).length) = some 1 := by
  refine ⟨rfl, rfl, rfl⟩

/-- C4 (amended): for a supplied conversation id the dispatcher's
`send_message` requires only that the conversation exists; its status
is never consulted, so creation succeeds and inserts a message into
the conversation whatever its status (including `completed` and
`archived`). -/
theorem send_checks_only_existence :
    ∀ (db : Db) (reg : Registry) (opts : SendMessageOpts)
      (newConvId newMsgId respMsgId : String) (now : Int)
      (mcp : Option String) (exec : InvocationResult)
      (cid : String) (c : Conversation),
    opts.conversationId = some cid → getConversation db cid = some c →
    ∃ db' res,
      sendMessage db reg opts newConvId newMsgId respMsgId now mcp exec
        = Except.ok (db', res) ∧
      res.conversation = c ∧
      ∃ m', m' ∈ db'.messages ∧ m'.id = newMsgId ∧
        m'.conversation_id = c.id := by
  intro db reg opts newConvId newMsgId respMsgId now mcp exec cid c hcid hg
  refine ⟨(sendMessageWith db reg opts newMsgId respMsgId now mcp exec c).1,
          (sendMessageWith db reg opts newMsgId respMsgId now mcp exec c).2, ?_, ?_, ?_⟩
  · simp only [sendMessage, hcid, hg]
  · exact (sendMessageWith_inserts db reg opts newMsgId respMsgId now mcp exec c).1
  · exact (sendMessageWith_inserts db reg opts newMsgId respMsgId now mcp exec c).2.2

/-- C4 witness: the amended theorem applied to the completed
conversation fixture: dispatching into `conv1` succeeds. -/
theorem send_checks_only_existence_witness :
    (sendMessage c4Db regAllOnline c4Opts "cNew" "mNew" "rNew" 5 none
      execNone).isOk = true := by
  obtain ⟨db', res, h, -, -⟩ :=
    send_checks_only_existence c4Db regAllOnline c4Opts "cNew" "mNew" "rNew" 5
      none execNone "conv1" c4Conv rfl rfl
  rw [h]
  rfl

/-! ## C5: offline-claude enqueue branch -/

/-- The enqueue branch of the routing body: with the registry saying
the target is offline and the target being `claude`, exactly one
queue row is appended (priority from the label map, `attempts = 0`,
`max_attempts = 5`), and the message stays `pending`. -/
theorem sendMessageWith_enqueue (db : Db) (reg : Registry)
    (opts : SendMessageOpts) (newMsgId respMsgId : String) (now : Int)
    (mcp : Option String) (exec : InvocationResult)
    (conversation : Conversation)
    (h1 : regIsOnline reg opts.target = false)
    (h2 : opts.target = ClientId.claude) :
    (sendMessageWith db reg opts newMsgId respMsgId now mcp exec
        conversation).1.queue = db.queue ++
      [{ id := db.nextQueueRowId
         message_id := newMsgId
         target := ClientId.claude
         priority := priorityMap (opts.priority.getD MessagePriority.normal)
         attempts := 0
         max_attempts := 5
         next_attempt := now
         created_at := now }] ∧
    (sendMessageWith db reg opts newMsgId respMsgId now mcp exec
        conversation).2.message.id = newMsgId ∧
    (sendMessageWith db reg opts newMsgId respMsgId now mcp exec
        conversation).2.message.status = MessageStatus.pending ∧
    (sendMessageWith db reg opts newMsgId respMsgId now mcp exec
        conversation).2.message
      ∈ (sendMessageWith db reg opts newMsgId respMsgId now mcp exec
        conversation).1.messages := by
  rw [h2] at h1
  simp only [sendMessageWith, h2, h1, Bool.false_eq_true, if_false,
    show (ClientId.claude == ClientId.codex) = false from rfl]
  exact ⟨rfl, rfl, rfl, mem_createMessage_new _ _ _ _⟩

/-- C5: dispatching `send_message` with the registry reporting the
target offline and `target = claude` inserts exactly one queue entry
for the fresh message, with priority urgent=2/high=1/normal=0,
`attempts = 0`, `max_attempts = 5`, `next_attempt = now`, while the
message row stays in status `pending`.  Resolution only fails when a
supplied conversation id does not exist. -/
theorem send_offline_claude_enqueues :
    ∀ (db : Db) (reg : Registry) (opts : SendMessageOpts)
      (newConvId newMsgId respMsgId : String) (now : Int)
      (mcp : Option String) (exec : InvocationResult),
    regIsOnline reg opts.target = false →
    opts.target = ClientId.claude →
    match sendMessage db reg opts newConvId newMsgId respMsgId now mcp exec with
    | Except.error _ =>
        ∃ cid, opts.conversationId = some cid ∧ getConversation db cid = none
    | Except.ok (db', res) =>
        db'.queue = db.queue ++
          [{ id := db.nextQueueRowId
             message_id := newMsgId
             target := ClientId.claude
             priority := priorityMap (opts.priority.getD MessagePriority.normal)
             attempts := 0
             max_attempts := 5
             next_attempt := now
             created_at := now }] ∧
        priorityMap MessagePriority.urgent = 2 ∧
        priorityMap MessagePriority.high = 1 ∧
        priorityMap MessagePriority.normal = 0 ∧
        res.message.id = newMsgId ∧
        res.message.status = MessageStatus.pending ∧
        res.message ∈ db'.messages := by
  intro db reg opts newConvId newMsgId respMsgId now mcp exec h1 h2
  cases hc : opts.conversationId with
  | none =>
    simp only [sendMessage, hc]
    obtain ⟨hq, hid, hst, hmem⟩ := sendMessageWith_enqueue
      (createConversation db { created_by := opts.sender } newConvId now).1 reg
      opts newMsgId respMsgId now mcp exec
      (createConversation db { created_by := opts.sender } newConvId now).2 h1 h2
    exact ⟨hq, rfl, rfl, rfl, hid, hst, hmem⟩
  | some cid =>
    cases hg : getConversation db cid with
    | none =>
      simp only [sendMessage, hc, hg]
      exact ⟨cid, rfl, hg⟩
    | some c =>
      simp only [sendMessage, hc, hg]
      obtain ⟨hq, hid, hst, hmem⟩ := sendMessageWith_enqueue
        db reg opts newMsgId respMsgId now mcp exec c h1 h2
      exact ⟨hq, rfl, rfl, rfl, hid, hst, hmem⟩

/-- C5 witness: the theorem applied to the empty database, an
all-offline registry and a high-priority send to `claude`. -/
theorem send_offline_claude_enqueues_witness :
    regIsOnline regAllOffline c5Opts.target = false ∧
    c5Opts.target = ClientId.claude ∧
    match sendMessage emptyDb regAllOffline c5Opts "cNew" "mNew" "rNew" 7
        none execNone with
    | Except.error _ =>
        ∃ cid, c5Opts.conversationId = some cid ∧ getConversation emptyDb cid = none
    | Except.ok (db', res) =>
        db'.queue = emptyDb.queue ++
          [{ id := emptyDb.nextQueueRowId
             message_id := "mNew"
             target := ClientId.claude
             priority := priorityMap (c5Opts.priority.getD MessagePriority.normal)
             attempts := 0
             max_attempts := 5
             next_attempt := 7
             created_at := 7 }] ∧
        priorityMap MessagePriority.urgent = 2 ∧
        priorityMap MessagePriority.high = 1 ∧
        priorityMap MessagePriority.normal = 0 ∧
        res.message.id = "mNew" ∧
        res.message.status = MessageStatus.pending ∧
        res.message ∈ db'.messages :=
  ⟨rfl, rfl,
   send_offline_claude_enqueues emptyDb regAllOffline c5Opts "cNew" "mNew"
     "rNew" 7 none execNone rfl rfl⟩

/-! ## C6: retry backoff and exhaustion sweep -/

/-- C6: `schedule_retry` on an entry with attempt count `n` writes the
row back with `attempts = n + 1` and
`next_attempt = now + min(30·2^n, 3600)` seconds, and
`clear_exhausted` keeps exactly the rows with
`attempts < max_attempts` (deleting those with
`attempts ≥ max_attempts`). -/
theorem schedule_retry_backoff_and_sweep :
    ∀ (db : Db) (item : QueueEntry) (now : Int),
    (item ∈ db.queue →
      { item with
          attempts := item.attempts + 1
          next_attempt := now + min (30 * 2 ^ item.attempts) 3600 }
        ∈ (scheduleRetry db item now).queue) ∧
    (∀ q, q ∈ (clearExhaustedMessages db).queue ↔
        q ∈ db.queue ∧ q.attempts < q.max_attempts) := by
  intro db item now
  constructor
  · intro h
    unfold scheduleRetry incrementAttempts
    have himg := List.mem_map_of_mem
      (fun q => if q.id == item.id then
        { q with attempts := q.attempts + 1,
                 next_attempt := now + min (30 * 2 ^ item.attempts) 3600 }
        else q) h
    simpa using himg
  · intro q
    unfold clearExhaustedMessages
    rw [List.mem_filter]
    constructor
    · rintro ⟨hq, hb⟩
      refine ⟨hq, ?_⟩
      rw [Bool.not_eq_true', decide_eq_false_iff_not, Nat.not_le] at hb
      omega
    · rintro ⟨hq, hb⟩
      refine ⟨hq, ?_⟩
      rw [Bool.not_eq_true', decide_eq_false_iff_not, Nat.not_le]
      omega

/-- C6 witness: the theorem applied to a row with two prior failures at
time 100: the row comes back with three attempts and
`next_attempt = 100 + 120`. -/
theorem schedule_retry_backoff_witness :
    c6Item ∈ c6Db.queue ∧
    { c6Item with
        attempts := c6Item.attempts + 1
        next_attempt := 100 + min (30 * 2 ^ c6Item.attempts) 3600 }
      ∈ (scheduleRetry c6Db c6Item 100).queue :=
  ⟨by decide,
   (schedule_retry_backoff_and_sweep c6Db c6Item 100).1 (by decide)⟩

/-! ## C10: store-level enqueue default -/

/-- C10: the store-level `enqueueMessage` defaults `max_attempts` to 3
(`?? 3` in the source, matching the schema default); an entry with
`max_attempts = 5` can only come from a caller passing it explicitly,
and exactly one row is appended. -/
theorem enqueue_default_max_attempts :
    ∀ (db : Db) (input : CreateQueuedMessageInput) (now : Int),
    (enqueueMessage db input now).2.max_attempts = input.max_attempts.getD 3 ∧
    (input.max_attempts = none →
      (enqueueMessage db input now).2.max_attempts = 3) ∧
    ((enqueueMessage db input now).2.max_attempts = 5 →
      input.max_attempts = some 5) ∧
    (enqueueMessage db input now).1.queue
      = db.queue ++ [(enqueueMessage db input now).2] := by
  intro db input now
  refine ⟨rfl, ?_, ?_, rfl⟩
  · intro h
    simp [enqueueMessage, h]
  · intro h
    cases hma : input.max_attempts with
    | none =>
      rw [show (enqueueMessage db input now).2.max_attempts
            = input.max_attempts.getD 3 from rfl, hma] at h
      simp at h
    | some v =>
      rw [show (enqueueMessage db input now).2.max_attempts
            = input.max_attempts.getD 3 from rfl, hma] at h
      simp at h
      rw [h]

/-- C10 witness: the theorem applied to an input omitting
`max_attempts`: the created row carries `max_attempts = 3`. -/
theorem enqueue_default_max_attempts_witness :
    (enqueueMessage emptyDb
      { message_id := "m9", target := ClientId.codex } 0).2.max_attempts = 3 :=
  (enqueue_default_max_attempts emptyDb
    { message_id := "m9", target := ClientId.codex } 0).2.1 rfl

/-! ## C7: dequeue filter, order and limit -/

/-- C7: `dequeue_messages` returns only queue rows of the requested
target that are due (`next_attempt ≤ now`) and not exhausted
(`attempts < max_attempts`), at most `limit` of them, pairwise ordered
by `priority DESC, next_attempt ASC`; and when at most `limit` rows
qualify, every qualifying row is returned. -/
theorem dequeue_filters_sorts_limits :
    ∀ (db : Db) (target : ClientId) (limit : Nat) (now : Int),
    (∀ q ∈ dequeueMessages db target limit now,
      q ∈ db.queue ∧ q.target = target ∧ q.next_attempt ≤ now ∧
        q.attempts < q.max_attempts) ∧
    (dequeueMessages db target limit now).length ≤ limit ∧
    (dequeueMessages db target limit now).Pairwise dequeueLE ∧
    ((db.queue.filter (dequeueReady target now)).length ≤ limit →
      ∀ q ∈ db.queue, dequeueReady target now q = true →
        q ∈ dequeueMessages db target limit now) := by
  intro db target limit now
  refine ⟨?_, ?_, ?_, ?_⟩
  · intro q hq
    have hsorted : q ∈ (db.queue.filter (dequeueReady target now)).insertionSort
        dequeueLE :=
      (List.take_sublist limit _).subset hq
    have hfil : q ∈ db.queue.filter (dequeueReady target now) :=
      (List.perm_insertionSort dequeueLE _).subset hsorted
    have hmem := (List.mem_filter.mp hfil).1
    have hready := (List.mem_filter.mp hfil).2
    unfold dequeueReady at hready
    rw [Bool.and_eq_true, Bool.and_eq_true] at hready
    obtain ⟨⟨h1, h2⟩, h3⟩ := hready
    refine ⟨hmem, by rwa [beq_iff_eq] at h1, ?_, ?_⟩
    · exact of_decide_eq_true h2
    · exact of_decide_eq_true h3
  · rw [show dequeueMessages db target limit now
        = ((db.queue.filter (dequeueReady target now)).insertionSort
            dequeueLE).take limit from rfl]
    rw [List.length_take]
    exact min_le_left _ _
  · have hs : ((db.queue.filter (dequeueReady target now)).insertionSort
        dequeueLE).Pairwise dequeueLE :=
      List.sorted_insertionSort dequeueLE _
    exact hs.sublist (List.take_sublist limit _)
  · intro hlen q hq hready
    have hfil : q ∈ db.queue.filter (dequeueReady target now) :=
      List.mem_filter.mpr ⟨hq, hready⟩
    have hsorted : q ∈ (db.queue.filter (dequeueReady target now)).insertionSort
        dequeueLE :=
      ((List.perm_insertionSort dequeueLE _).symm).subset hfil
    have hlen' : ((db.queue.filter (dequeueReady target now)).insertionSort
        dequeueLE).length ≤ limit := by
      rw [(List.perm_insertionSort dequeueLE _).length_eq]
      exact hlen
    rw [show dequeueMessages db target limit now
        = ((db.queue.filter (dequeueReady target now)).insertionSort
            dequeueLE).take limit from rfl]
    rw [List.take_of_length_le hlen']
    exact hsorted

/-- C7 witness: the theorem applied to the four-row fixture at
time 50: the exhausted and not-yet-due rows are excluded, and the
ready high-priority row is returned. -/
theorem dequeue_filters_sorts_limits_witness :
    ((c7Db.queue.filter (dequeueReady ClientId.claude 50)).length ≤ 10) ∧
    c7RowB ∈ c7Db.queue ∧
    dequeueReady ClientId.claude 50 c7RowB = true ∧
    c7RowB ∈ dequeueMessages c7Db ClientId.claude 10 50 :=
  ⟨by decide, by decide, by decide,
   (dequeue_filters_sorts_limits c7Db ClientId.claude 10 50).2.2.2
     (by decide) c7RowB (by decide) (by decide)⟩

/-! ## C9: persona selection -/

theorem charsStartWith_iff (n h : List Char) :
    charsStartWith n h = true ↔ ∃ t, h = n ++ t := by
  induction n generalizing h with
  | nil =>
    simp [charsStartWith]
  | cons a as ih =>
    cases h with
    | nil =>
      simp [charsStartWith]
    | cons b bs =>
      rw [show charsStartWith (a :: as) (b :: bs)
          = ((a == b) && charsStartWith as bs) from rfl]
      rw [Bool.and_eq_true, beq_iff_eq, ih]
      constructor
      · rintro ⟨rfl, t, rfl⟩
        exact ⟨t, rfl⟩
      · rintro ⟨t, ht⟩
        injection ht with h1 h2
        exact ⟨h1.symm, t, h2⟩

theorem strIncludes_go_iff (n h : List Char) :
    strIncludes.go n h = true ↔ ∃ s t, h = s ++ n ++ t := by
  induction h with
  | nil =>
    rw [show strIncludes.go n [] = charsStartWith n [] from rfl,
      charsStartWith_iff]
    constructor
    · rintro ⟨t, ht⟩
      exact ⟨[], t, ht⟩
    · rintro ⟨s, t, ht⟩
      cases s with
      | nil => exact ⟨t, ht⟩
      | cons a as => exact absurd ht (by simp)
  | cons c rest ih =>
    rw [show strIncludes.go n (c :: rest)
        = (charsStartWith n (c :: rest) || strIncludes.go n rest) from rfl]
    rw [Bool.or_eq_true, charsStartWith_iff, ih]
    constructor
    · rintro (⟨t, ht⟩ | ⟨s, t, ht⟩)
      · exact ⟨[], t, ht⟩
      · exact ⟨c :: s, t, by rw [ht]; rfl⟩
    · rintro ⟨s, t, ht⟩
      cases s with
      | nil => exact Or.inl ⟨t, ht⟩
      | cons a as =>
        injection ht with h1 h2
        exact Or.inr ⟨as, t, h2⟩

theorem strIncludes_iff (hay needle : String) :
    strIncludes hay needle = true ↔ IsSubstr needle hay := by
  rw [show strIncludes hay needle = strIncludes.go needle.toList hay.toList
      from rfl]
  exact strIncludes_go_iff needle.toList hay.toList

theorem selectAgentLoop_eq (lower : String) (ts : List String) :
    selectAgentLoop lower ts
      = if ts.any (fun t => strIncludes lower t) then ORACLE else ARCHITECT := by
  induction ts with
  | nil => rfl
  | cons trig rest ih =>
    by_cases h : strIncludes lower trig = true
    · simp [selectAgentLoop, h]
    · simp [selectAgentLoop, h, ih]

/-- C9: in the offline-codex invocation the dispatcher uses the given
persona when `agent` is explicit (`getAgent`); otherwise `selectAgent`
picks `oracle` exactly when one of the eleven oracle triggers occurs as
a substring of the lowercased content, and `architect` in every other
case. -/
theorem persona_selection :
    ∀ (content : String),
    (selectAgent content = ORACLE ↔
        ∃ trig ∈ oracleTriggers, IsSubstr trig (strToLower content)) ∧
    (selectAgent content = ORACLE ∨ selectAgent content = ARCHITECT) ∧
    ORACLE ≠ ARCHITECT ∧
    (∀ a, selectPersonaForSend (some a) content = getAgent (some a)) ∧
    selectPersonaForSend none content = selectAgent content ∧
    getAgent (some "oracle") = ORACLE ∧
    getAgent (some "architect") = ARCHITECT := by
  intro content
  have hloop := selectAgentLoop_eq (strToLower content) oracleTriggers
  refine ⟨?_, ?_, by decide, fun a => rfl, rfl, rfl, rfl⟩
  · rw [show selectAgent content
        = selectAgentLoop (strToLower content) oracleTriggers from rfl, hloop]
    by_cases h : oracleTriggers.any
        (fun t => strIncludes (strToLower content) t) = true
    · rw [if_pos h]
      simp only [eq_self_iff_true, true_iff]
      rw [List.any_eq_true] at h
      obtain ⟨trig, htrig, hinc⟩ := h
      exact ⟨trig, htrig, (strIncludes_iff (strToLower content) trig).mp hinc⟩
    · rw [if_neg h]
      constructor
      · intro habs
        exact absurd habs (by decide)
      · rintro ⟨trig, htrig, hsub⟩
        exact absurd (List.any_eq_true.mpr
          ⟨trig, htrig, (strIncludes_iff (strToLower content) trig).mpr hsub⟩) h
  · rw [show selectAgent content
        = selectAgentLoop (strToLower content) oracleTriggers from rfl, hloop]
    by_cases h : oracleTriggers.any
        (fun t => strIncludes (strToLower content) t) = true
    · rw [if_pos h]; exact Or.inl rfl
    · rw [if_neg h]; exact Or.inr rfl

/-- C9 witness: the theorem applied to two concrete contents: a
message containing the trigger `why` selects `oracle`, and a plain
greeting selects `architect`. -/
theorem persona_selection_witness :
    selectAgent "Why is X failing?" = ORACLE ∧
    selectAgent "hello there" = ARCHITECT ∧
    selectPersonaForSend (some "architect") "Why is X failing?"
      = getAgent (some "architect") :=
  ⟨(persona_selection "Why is X failing?").1.mpr
    ⟨"why", by decide, [], " is x failing?".toList, by decide⟩,
   ((persona_selection "hello there").2.1).resolve_left (by decide),
   (persona_selection "Why is X failing?").2.2.2.1 "architect"⟩

/-! ## C8: tool-result response extraction -/

/-- C8 counterexample: the claim (from spec §4.7) says the extracted
text is JSON-parsed and a `response` field returned when present.  In
the code, the `content[]` scan returns the first `type: "text"` item
verbatim before the JSON-parse branch is ever reached: for a text item
carrying `{"response":"hi"}` the code returns the raw JSON string
while the spec's reading returns `"hi"`. -/
theorem extract_skips_json_parse :
    extractResponse c8Parse (some c8Result) = some c8Json ∧
    extractResponseSpec c8Parse (some c8Result) = some "hi" ∧
    c8Json ≠ "hi" := by
  refine ⟨rfl, rfl, by decide⟩

/-- C8 (amended): whenever `content[]` holds an item of type `text`
(with a `text` property), `extractResponse` returns the first such
item's text verbatim, never applying the JSON `response`-field
extraction; the parse branch is reachable only when no item has type
`text` and the legacy `toolResult` shapes are also absent. -/
theorem extract_returns_first_text_verbatim :
    ∀ (parse : JsonParse) (r : CallToolResult) (items : List ContentItem)
      (t : String),
    r.content = some items → findTextItem items = some t →
    extractResponse parse (some r) = some t := by
  intro parse r items t hc hf
  simp only [extractResponse]
  rw [hc]
  simp [Option.join, hf]

/-- C8 witness: the amended theorem applied to a result whose second
content item is the first of type `text`: its text comes back
verbatim. -/
theorem extract_returns_first_text_verbatim_witness :
    c8PlainResult.content
      = some [{ type := "log", text := some "noise" },
              { type := "text", text := some "plain answer" }] ∧
    extractResponse c8Parse (some c8PlainResult) = some "plain answer" :=
  ⟨rfl,
   extract_returns_first_text_verbatim c8Parse c8PlainResult
     [{ type := "log", text := some "noise" },
      { type := "text", text := some "plain answer" }] "plain answer" rfl rfl⟩

end Bridge
